import Mathlib

/-!
Verification of the command-signature-driven REST routing and dispatch
engine in `src/pybind/ceph_rest_api.py`.

The Python source is shallowly embedded: each Python function of the source
becomes a Lean definition of the same name (where Lean allows it); the
Python standard-library primitives the source calls (`str.replace`, `str`,
`int`, `sorted`, `json.loads`, `json.dumps`, `textwrap.wrap`, string
escaping) are modelled by small executable Lean definitions.  Functions of
the repository that live outside the packaged source directory
(`ceph_argparse`: `validate`, `concise_sig`, `descsort`, `CephOsdName`) are
modelled from the specification and marked as such in their doc comments.
-/

/-! ## Models of Python primitives -/

/-- Python truthiness of an optional string: `None` and `''` are falsy. -/
def pyTruthy : Option String → Bool
  | none => false
  | some s => !s.isEmpty

/-- Python `a or b` for an optional string `a` and a string fallback `b`. -/
def pyOr (a : Option String) (b : String) : String :=
  match a with
  | none => b
  | some s => if s.isEmpty then b else s

/-- Python `a or b` on two strings (`''` is falsy). -/
def pyOrS (a b : String) : String :=
  if a.isEmpty then b else a

/-- Contiguous-sublist test on character lists. -/
def isInfixL (needle : List Char) : List Char → Bool
  | [] => needle.isEmpty
  | c :: rest => needle.isPrefixOf (c :: rest) || isInfixL needle rest

/-- Python `needle in hay` substring test. -/
def strIn (needle hay : String) : Bool :=
  isInfixL needle.toList hay.toList

/-- Lexicographic `<=` on character lists by code point. -/
def lexLe : List Char → List Char → Bool
  | [], _ => true
  | _ :: _, [] => false
  | a :: as, b :: bs =>
    a.toNat < b.toNat || (a.toNat == b.toNat && lexLe as bs)

/-- Python `<=` on strings (lexicographic by code point). -/
def strLe (a b : String) : Bool :=
  lexLe a.toList b.toList

/-- Stable insertion used by the model of Python `sorted`. -/
def insertSorted (le : α → α → Bool) (x : α) : List α → List α
  | [] => [x]
  | y :: ys => if le x y then x :: y :: ys else y :: insertSorted le x ys

/-- Model of Python `sorted(l, cmp)`: a stable sort (insertion sort). -/
def pySorted (le : α → α → Bool) (l : List α) : List α :=
  l.foldr (insertSorted le) []

/-- Fuel-driven worker for the model of Python `str.replace`: replaces
non-overlapping occurrences of `pat` left to right.  The fuel is an upper
bound on the input length, so it never runs out on the initial call. -/
def replaceFuel (pat repl : List Char) : Nat → List Char → List Char
  | _, [] => []
  | 0, cs => cs
  | fuel + 1, c :: rest =>
    if pat.isPrefixOf (c :: rest) && !pat.isEmpty then
      repl ++ replaceFuel pat repl fuel (rest.drop (pat.length - 1))
    else
      c :: replaceFuel pat repl fuel rest

/-- Model of Python `s.replace(pat, repl)`. -/
def pyReplace (s pat repl : String) : String :=
  ⟨replaceFuel pat.toList repl.toList (s.toList.length + 1) s.toList⟩

/-- Python `s.startswith(p)`. -/
def pyStartsWith (s p : String) : Bool :=
  p.toList.isPrefixOf s.toList

/-- Fuel-driven worker for the model of Python `s.split(sep)` with a
nonempty separator. -/
def splitOnAux (sep : List Char) : Nat → List Char → List Char → List (List Char)
  | 0, _, cur => [cur.reverse]
  | fuel + 1, cs, cur =>
    if sep.isPrefixOf cs && !sep.isEmpty && !cs.isEmpty then
      cur.reverse :: splitOnAux sep fuel (cs.drop sep.length) []
    else
      match cs with
      | [] => [cur.reverse]
      | c :: rest => splitOnAux sep fuel rest (c :: cur)

/-- Model of Python `s.split(sep)` for a nonempty separator: split at every
occurrence, preserving empty fields. -/
def pySplit (s sep : String) : List String :=
  (splitOnAux sep.toList (s.toList.length + 1) s.toList []).map
    (fun l => String.mk l)

/-- Model of Python `s.strip()`: remove leading and trailing whitespace. -/
def pyStrip (s : String) : String :=
  let ws := fun (c : Char) => c = ' ' || c = '\t' || c = '\n' || c = '\r'
  String.mk (((s.toList.dropWhile ws).reverse.dropWhile ws).reverse)

/-- Decimal digit character, used by the model of Python `str(n)`. -/
def digitChar (d : Nat) : Char :=
  if d = 0 then '0' else if d = 1 then '1' else if d = 2 then '2'
  else if d = 3 then '3' else if d = 4 then '4' else if d = 5 then '5'
  else if d = 6 then '6' else if d = 7 then '7' else if d = 8 then '8'
  else '9'

/-- Fuel-driven digits of `n`, most significant first. -/
def natToStrAux : Nat → Nat → List Char
  | 0, _ => []
  | fuel + 1, n =>
    if n < 10 then [digitChar n]
    else natToStrAux fuel (n / 10) ++ [digitChar (n % 10)]

/-- Model of Python `str(n)` for a natural number. -/
def natToStr (n : Nat) : String :=
  ⟨natToStrAux (n + 1) n⟩

/-- Model of Python `int(s)` on strings of decimal digits (the only shape
the source feeds it; a malformed string would raise in Python). -/
def pyInt (s : String) : Nat :=
  s.toList.foldl (fun a c => a * 10 + (c.toNat - 48)) 0

/-- Key membership in an association list (Python `k in dict`). -/
def hasKey (d : List (String × α)) (k : String) : Bool :=
  d.any (fun kv => kv.1 == k)

/-- Lookup with default in an association list. -/
def lookupD (d : List (String × α)) (k : String) (dflt : α) : α :=
  match d.find? (fun kv => kv.1 == k) with
  | some kv => kv.2
  | none => dflt

/-- Lookup in an association list. -/
def dictGet (d : List (String × α)) (k : String) : Option α :=
  (d.find? (fun kv => kv.1 == k)).map (fun kv => kv.2)

/-- Model of Python `dict[k] = v`: overwrite in place, else append. -/
def dictSet (d : List (String × α)) (k : String) (v : α) : List (String × α) :=
  if d.any (fun kv => kv.1 == k) then
    d.map (fun kv => if kv.1 == k then (k, v) else kv)
  else
    d ++ [(k, v)]

/-- Model of Python `set(l)` as an insertion-ordered deduplicated list. -/
def pySetList (l : List String) : List String :=
  l.foldl (fun acc x => if acc.contains x then acc else acc ++ [x]) []

/-- Model of Python `set |= set(l)` on the list model of sets. -/
def setUnionList (a b : List String) : List String :=
  b.foldl (fun acc x => if acc.contains x then acc else acc ++ [x]) a

/-- Model of `flask.escape` (HTML escaping). -/
def escapeHtml (s : String) : String :=
  s.toList.foldl
    (fun acc c =>
      acc ++ (if c = '&' then "&amp;" else if c = '<' then "&lt;"
              else if c = '>' then "&gt;" else if c = '"' then "&#34;"
              else String.singleton c))
    ""

/-- Model of `xml.sax.saxutils.escape`. -/
def xmlEscape (s : String) : String :=
  s.toList.foldl
    (fun acc c =>
      acc ++ (if c = '&' then "&amp;" else if c = '<' then "&lt;"
              else if c = '>' then "&gt;" else String.singleton c))
    ""

/-- One greedy line of the model of `textwrap.wrap`. -/
def wrapLines (width : Nat) : List String → String → List String
  | [], cur => if cur.isEmpty then [] else [cur]
  | w :: ws, cur =>
    if cur.isEmpty then wrapLines width ws w
    else if cur.length + 1 + w.length ≤ width then
      wrapLines width ws (cur ++ " " ++ w)
    else
      cur :: wrapLines width ws w

/-- Model of `textwrap.wrap(s, width)`: greedy word wrapping. -/
def textwrapWrap (s : String) (width : Nat) : List String :=
  wrapLines width ((pySplit s " ").filter (fun w => !w.isEmpty)) ""

/-! ## Model of JSON (`json.loads` / `json.dumps`) -/

/-- JSON values.  Numbers keep their source lexeme. -/
inductive Json where
  | null
  | bool (b : Bool)
  | num (lexeme : String)
  | str (s : String)
  | arr (xs : List Json)
  | obj (kvs : List (String × Json))

/-- JSON whitespace skipping. -/
def skipWs (cs : List Char) : List Char :=
  cs.dropWhile (fun c => c = ' ' || c = '\t' || c = '\n' || c = '\r')

/-- Hex-digit test on characters. -/
def isHexDigitC (c : Char) : Bool :=
  c.isDigit || ('a' ≤ c && c ≤ 'f') || ('A' ≤ c && c ≤ 'F')

/-- Value of a hex digit. -/
def hexVal (c : Char) : Nat :=
  if c.isDigit then c.toNat - 48
  else if 'a' ≤ c && c ≤ 'f' then c.toNat - 87
  else c.toNat - 55

/-- Parse the tail of a JSON string literal (the opening quote consumed),
returning the decoded characters and the remaining input. -/
def parseStrAux : List Char → Option (List Char × List Char)
  | [] => none
  | '"' :: rest => some ([], rest)
  | '\\' :: 'u' :: h1 :: h2 :: h3 :: h4 :: rest =>
    if isHexDigitC h1 && isHexDigitC h2 && isHexDigitC h3 && isHexDigitC h4 then
      match parseStrAux rest with
      | some (cs, r) =>
        some (Char.ofNat (4096 * hexVal h1 + 256 * hexVal h2 + 16 * hexVal h3 + hexVal h4) :: cs, r)
      | none => none
    else none
  | '\\' :: c :: rest =>
    let dec : Char :=
      if c = 'n' then '\n' else if c = 't' then '\t' else if c = 'r' then '\r'
      else if c = 'b' then Char.ofNat 8 else if c = 'f' then Char.ofNat 12
      else c
    match parseStrAux rest with
    | some (cs, r) => some (dec :: cs, r)
    | none => none
  | c :: rest =>
    match parseStrAux rest with
    | some (cs, r) => some (c :: cs, r)
    | none => none

/-- Parse a JSON number lexeme (lenient: any nonempty run drawn from the
number alphabet after an optional sign). -/
def parseNum (cs : List Char) : Option (Json × List Char) :=
  let isNumChar := fun (c : Char) =>
    c.isDigit || c = '.' || c = 'e' || c = 'E' || c = '+' || c = '-'
  match cs with
  | c :: _ =>
    if c = '-' || c.isDigit then
      let lex := cs.takeWhile isNumChar
      if lex.isEmpty then none
      else some (Json.num ⟨lex⟩, cs.drop lex.length)
    else none
  | [] => none

mutual

/-- Fuel-driven recursive-descent parser for a JSON value. -/
def parseVal : Nat → List Char → Option (Json × List Char)
  | 0, _ => none
  | fuel + 1, cs =>
    match skipWs cs with
    | 'n' :: 'u' :: 'l' :: 'l' :: rest => some (Json.null, rest)
    | 't' :: 'r' :: 'u' :: 'e' :: rest => some (Json.bool true, rest)
    | 'f' :: 'a' :: 'l' :: 's' :: 'e' :: rest => some (Json.bool false, rest)
    | 'N' :: 'a' :: 'N' :: rest => some (Json.num "NaN", rest)
    | 'I' :: 'n' :: 'f' :: 'i' :: 'n' :: 'i' :: 't' :: 'y' :: rest =>
      some (Json.num "Infinity", rest)
    | '-' :: 'I' :: 'n' :: 'f' :: 'i' :: 'n' :: 'i' :: 't' :: 'y' :: rest =>
      some (Json.num "-Infinity", rest)
    | '"' :: rest =>
      match parseStrAux rest with
      | some (cs2, r) => some (Json.str ⟨cs2⟩, r)
      | none => none
    | '[' :: rest =>
      (match skipWs rest with
       | ']' :: r2 => some (Json.arr [], r2)
       | _ =>
         match parseElems fuel rest with
         | some (xs, r2) => some (Json.arr xs, r2)
         | none => none)
    | '{' :: rest =>
      (match skipWs rest with
       | '}' :: r2 => some (Json.obj [], r2)
       | _ =>
         match parseMembers fuel rest with
         | some (kvs, r2) => some (Json.obj kvs, r2)
         | none => none)
    | cs2 => parseNum cs2

/-- Parse array elements after `[` (at least one element). -/
def parseElems : Nat → List Char → Option (List Json × List Char)
  | 0, _ => none
  | fuel + 1, cs =>
    match parseVal fuel cs with
    | none => none
    | some (v, r) =>
      match skipWs r with
      | ',' :: r2 =>
        (match parseElems fuel r2 with
         | some (xs, r3) => some (v :: xs, r3)
         | none => none)
      | ']' :: r2 => some ([v], r2)
      | _ => none

/-- Parse object members after `{` (at least one member). -/
def parseMembers : Nat → List Char → Option (List (String × Json) × List Char)
  | 0, _ => none
  | fuel + 1, cs =>
    match skipWs cs with
    | '"' :: rest =>
      (match parseStrAux rest with
       | none => none
       | some (k, r) =>
         match skipWs r with
         | ':' :: r2 =>
           (match parseVal fuel r2 with
            | none => none
            | some (v, r3) =>
              match skipWs r3 with
              | ',' :: r4 =>
                (match parseMembers fuel r4 with
                 | some (kvs, r5) => some ((⟨k⟩, v) :: kvs, r5)
                 | none => none)
              | '}' :: r4 => some ([(⟨k⟩, v)], r4)
              | _ => none)
         | _ => none)
    | _ => none

end

/-- Model of Python `json.loads`: `none` models a raised `ValueError`. -/
def json_loads (s : String) : Option Json :=
  let cs := s.toList
  match parseVal (cs.length + 1) cs with
  | some (v, rest) => if (skipWs rest).isEmpty then some v else none
  | none => none

/-- Escape a string for the model of `json.dumps`. -/
def jsonEscape (s : String) : String :=
  s.toList.foldl
    (fun acc c =>
      acc ++ (if c = '"' then "\\\"" else if c = '\\' then "\\\\"
              else if c = '\n' then "\\n" else if c = '\t' then "\\t"
              else if c = '\r' then "\\r" else String.singleton c))
    ""

mutual

/-- Model of Python `json.dumps` (object keys in insertion order, the
default `', '` / `': '` separators). -/
def json_dumps : Json → String
  | Json.null => "null"
  | Json.bool true => "true"
  | Json.bool false => "false"
  | Json.num lexeme => lexeme
  | Json.str s => "\"" ++ jsonEscape s ++ "\""
  | Json.arr xs => "[" ++ ", ".intercalate (dumpList xs) ++ "]"
  | Json.obj kvs => "\x7b" ++ ", ".intercalate (dumpObj kvs) ++ "\x7d"

/-- Serialize array elements. -/
def dumpList : List Json → List String
  | [] => []
  | x :: xs => json_dumps x :: dumpList xs

/-- Serialize object members. -/
def dumpObj : List (String × Json) → List String
  | [] => []
  | (k, v) :: kvs => ("\"" ++ jsonEscape k ++ "\": " ++ json_dumps v) :: dumpObj kvs

end

/-! ## Signature model (argument descriptors from `ceph_argparse`) -/

/-- The argument-descriptor type tags the dispatcher inspects
(`desc.t` comparisons in the source); every other `ceph_argparse` type is
`otherType`. -/
inductive ArgKind where
  | cephPrefix
  | cephChoices
  | cephOsdName
  | otherType
deriving DecidableEq

/-- One argument descriptor of a command signature (the fields of
`ceph_argparse` descriptors the source reads: `t`, `name`, `req`,
`instance.prefix` for prefixes, `instance.strings` for choices). -/
structure ArgDesc where
  t : ArgKind
  name : String
  req : Bool
  prefixStr : String
  strings : List String
deriving DecidableEq

/-- Model of Python `str(desc.instance)`: the prefix word for a prefix
descriptor, the `|`-joined literals for a choices descriptor. -/
def descStr (d : ArgDesc) : String :=
  match d.t with
  | ArgKind.cephPrefix => d.prefixStr
  | ArgKind.cephChoices => "|".intercalate d.strings
  | _ => "<" ++ d.name ++ ">"

/-- Modelled from the spec: `concise_sig` from `ceph_argparse` (repository
code not under `src/`): the rendered concise form of a signature — prefix
literals as their word, other descriptors by name, space-separated. -/
def concise_sig (sig : List ArgDesc) : String :=
  " ".intercalate (sig.map (fun d =>
    if d.t == ArgKind.cephPrefix then d.prefixStr else d.name))

/-- Modelled from the spec: the synthetic `tell <target>` signature head the
route compiler prepends for `tellosd`-flavored descriptors
(`parse_funcsig(['tell', {'name':'target','type':'CephOsdName'}])`). -/
def tellSig : List ArgDesc :=
  [⟨ArgKind.cephPrefix, "", true, "tell", []⟩,
   ⟨ArgKind.cephOsdName, "target", true, "", []⟩]

/-- Modelled from the spec: `CephOsdName().valid` from `ceph_argparse`
(repository code not under `src/`): parses a backend node name
`osd.<id>` or a bare numeric `<id>`, yielding `(nametype, nameid)`;
an error models the raised exception. -/
def cephOsdNameValid (s : String) : Except String (String × String) :=
  let t := if pyStartsWith s "osd." then s.drop 4 else s
  if !t.isEmpty && t.toList.all Char.isDigit then
    Except.ok ("osd", t)
  else
    Except.error ("invalid osdname " ++ s)

/-! ## Catalog data model -/

/-- One raw command descriptor of the catalog (`glob.sigdict` values):
`sig`, `help`, `module`, `perm` and the assigned `flavor`. -/
structure CmdDict where
  sig : List ArgDesc
  help : String
  module : String
  perm : String
  flavor : String
deriving DecidableEq

/-- One compiled overload stored at a RouteKey (a `urldict` of the source). -/
structure UrlDict where
  paramsig : List ArgDesc
  help : String
  module : String
  perm : String
  flavor : String
  methods : List String
deriving DecidableEq

/-- The process globals the dispatcher reads (`glob`): the route table,
the raw catalog and the base URL. -/
structure Glob where
  urls : List (String × List UrlDict)
  sigdict : List (String × CmdDict)
  baseurl : String
deriving DecidableEq

/-- The parts of the Flask request object the handler reads. -/
structure Request where
  method : String
  endpoint : String
  accept : List String
  args : List (String × List String)
  data : String
deriving DecidableEq

/-- An HTTP response: body, status code and the Content-Type header when
the handler sets one explicitly. -/
structure Resp where
  body : String
  status : Nat
  contentType : Option String
deriving DecidableEq

/-- A request-argument value as the handler builds it from the query
string: a single string, or the list of values for a repeated key. -/
inductive PyVal where
  | pstr (s : String)
  | plist (l : List String)
deriving DecidableEq

/-- The dynamically-typed `target` variable of the handler: unset (`None`),
still the raw path segment string, or a `(role, id)` pair. -/
inductive TargetV where
  | tnone
  | raw (s : String)
  | pair (role : String) (idv : String)
deriving DecidableEq

/-- Python truthiness of the handler's `target` variable. -/
def tvTruthy : TargetV → Bool
  | TargetV.tnone => false
  | TargetV.raw s => !s.isEmpty
  | TargetV.pair _ _ => true

/-- The execution collaborator (`json_command`): prefix words, target,
input buffer and argument mapping to `(status, output, statusMessage)`. -/
def JsonCmd : Type :=
  String → TargetV → String → List (String × PyVal) → (Int × String × String)

/-! ## Route compiler (`generate_url_and_params`) -/

/-- One step of the route compiler's classification loop: the descriptor
either extends the URL path or is appended to the residual parameters. -/
def guStep (flavor : String) (acc : String × List ArgDesc) (d : ArgDesc) :
    String × List ArgDesc :=
  if d.t == ArgKind.cephPrefix then
    (acc.1 ++ "/" ++ d.prefixStr, acc.2)
  else if d.t == ArgKind.cephChoices && d.strings.length == 1 && d.req &&
          !pyStartsWith (descStr d) "--" && acc.2.isEmpty then
    (acc.1 ++ "/" ++ descStr d, acc.2)
  else if flavor == "tellosd" && d.t == ArgKind.cephOsdName && d.name == "target" then
    (acc.1 ++ "/<target>", acc.2)
  else
    (acc.1, acc.2 ++ [d])

/-- The signature the compiler actually walks: `tellosd` descriptors get
the synthetic `tell <target>` head prepended. -/
def effSig (flavor : String) (sig : List ArgDesc) : List ArgDesc :=
  if flavor == "tellosd" then tellSig ++ sig else sig

/-- `generate_url_and_params`: compile a signature and flavor into an
absolute URL path and the residual parameter signature. -/
def generate_url_and_params (baseurl : String) (sig : List ArgDesc)
    (flavor : String) : String × List ArgDesc :=
  let r := (effSig flavor sig).foldl (guStep flavor) ("", [])
  (baseurl ++ r.1, r.2)

/-- `concise_sig_for_uri`: generic description of a REST request for a
signature (prefix words joined by `/`, residual args after `?`). -/
def concise_sig_for_uri (sig : List ArgDesc) (flavor : String) : String :=
  let base := if flavor == "tellosd" then "tell/<osdid>/" else ""
  let pres := (sig.filter (fun d => d.t == ArgKind.cephPrefix)).map
    (fun d => d.prefixStr)
  let args := (sig.filter (fun d => d.t != ArgKind.cephPrefix)).map
    (fun d => d.name ++ "=" ++ descStr d)
  let ret := base ++ "/".intercalate pres
  if !args.isEmpty then ret ++ "?" ++ "&".intercalate args else ret

/-! ## Catalog builder (`api_setup`) -/

/-- `METHOD_DICT`, in CPython-2 dictionary iteration order (`'r'` hashes to
slot 3 and `'w'` to slot 6 of the 8-slot small dict, so iteration visits
`'r'` before `'w'`). -/
def METHOD_DICT : List (String × List String) :=
  [("r", ["GET"]), ("w", ["PUT", "DELETE"])]

/-- The `for k in METHOD_DICT: if k in perm: methods = METHOD_DICT[k]` loop
of `api_setup`.  `carry` is the value the `methods` variable holds on
entry (the previous loop iteration's value); `none` models the variable
being unbound, so a result of `none` models a `NameError`. -/
def methodUpdate (perm : String) (carry : Option (List String)) :
    Option (List String) :=
  METHOD_DICT.foldl
    (fun acc kv => if strIn kv.1 perm then some kv.2 else acc) carry

/-- The state of the route-table building loop of `api_setup`: the
`glob.urls` table, the `add_url_rule` registrations made so far (rule,
methods) in order, and the current value of the `methods` variable. -/
structure BuildSt where
  urls : List (String × List UrlDict)
  regs : List (String × List String)
  carry : Option (List String)
deriving DecidableEq

/-- Append an overload to an existing URL's list in the route table. -/
def appendAt (d : List (String × List UrlDict)) (k : String) (v : UrlDict) :
    List (String × List UrlDict) :=
  d.map (fun kv => if kv.1 == k then (kv.1, kv.2 ++ [v]) else kv)

/-- One iteration of `api_setup`'s route-table loop for a catalog entry:
compile the URL, derive the methods from the permission, insert the
`urldict`, union methods across overloads at an existing URL, and record
the two `add_url_rule` registrations (bare URL and `.<fmt>` variant). -/
def buildStep (baseurl : String) (st : BuildSt) (kv : String × CmdDict) :
    Except String BuildSt :=
  let cmd := kv.2
  let res := generate_url_and_params baseurl cmd.sig cmd.flavor
  let url := res.1
  match methodUpdate cmd.perm st.carry with
  | none => Except.error "NameError: methods"
  | some methods =>
    let ud : UrlDict :=
      ⟨res.2, cmd.help, cmd.module, cmd.perm, cmd.flavor, methods⟩
    if hasKey st.urls url then
      let olds := lookupD st.urls url []
      let methods2 := olds.foldl
        (fun ms od => setUnionList ms (pySetList od.methods))
        (pySetList methods)
      Except.ok ⟨appendAt st.urls url ud,
        st.regs ++ [(url, methods2), (url ++ ".<fmt>", methods2)],
        some methods2⟩
    else
      Except.ok ⟨st.urls ++ [(url, [ud])],
        st.regs ++ [(url, methods), (url ++ ".<fmt>", methods)],
        some methods⟩

/-- The route-table building loop of `api_setup` over the merged catalog. -/
def buildUrls (baseurl : String) (sigdict : List (String × CmdDict)) :
    Except String BuildSt :=
  sigdict.foldlM (buildStep baseurl) ⟨[], [], none⟩

/-- The methods of the last `add_url_rule` registration for a URL. -/
def lastRegOf (r : Except String BuildSt) (url : String) :
    Option (List String) :=
  match r with
  | Except.error _ => none
  | Except.ok st =>
    ((st.regs.filter (fun kv => kv.1 == url)).getLast?).map (fun kv => kv.2)

/-- The methods of the first overload stored at a URL of the built table. -/
def firstUrlDictMethods (r : Except String BuildSt) (url : String) :
    Option (List String) :=
  match r with
  | Except.error _ => none
  | Except.ok st =>
    match lookupD st.urls url [] with
    | [] => none
    | ud :: _ => some ud.methods

/-- The numeric value `api_setup` extracts from a catalog key:
`int(key.replace('cmd', ''))`. -/
def numOfKey (k : String) : Nat :=
  pyInt (pyReplace k "cmd" "")

/-- The lexicographically greatest primary key, `sorted(keys)[-1]`
(Python raises `IndexError` on an empty catalog; the model returns `""`). -/
def lexMaxKey (keys : List String) : String :=
  (pySorted strLe keys).getLastD ""

/-- One iteration of the merge loop at lines 177–186 of the source: insert
one secondary entry under `'cmd' + str(osdkey)` with its assigned flavor
(`pgid` when the concise form starts with `pg`, else `tellosd`) and bump
the counter. -/
def mergeStep (acc : List (String × CmdDict) × Nat) (kv : String × CmdDict) :
    List (String × CmdDict) × Nat :=
  let flavor :=
    if pyStartsWith (concise_sig kv.2.sig) "pg" then "pgid" else "tellosd"
  let newv := { kv.2 with flavor := flavor }
  (dictSet acc.1 ("cmd" ++ natToStr acc.2) newv, acc.2 + 1)

/-- The merge of the secondary (osd) catalog into the primary (mon)
catalog, lines 166–186 of the source: tag primary entries `mon`, compute
`maxkey` as `int` of the lexicographically greatest primary key with
`'cmd'` removed, then fold `mergeStep` over the secondary entries with the
counter starting at `maxkey + 1`. -/
def mergeOsdSigdict (monSig osdSig : List (String × CmdDict)) :
    List (String × CmdDict) :=
  let monF := monSig.map (fun kv => (kv.1, { kv.2 with flavor := "mon" }))
  let maxkey := numOfKey (lexMaxKey (monF.map (fun kv => kv.1)))
  (osdSig.foldl mergeStep (monF, maxkey + 1)).1

/-- The keys under which the secondary entries are inserted by the merge. -/
def osdNewKeys (monSig osdSig : List (String × CmdDict)) : List String :=
  let monF := monSig.map (fun kv => (kv.1, { kv.2 with flavor := "mon" }))
  let maxkey := numOfKey (lexMaxKey (monF.map (fun kv => kv.1)))
  (List.range osdSig.length).map (fun i => "cmd" ++ natToStr (maxkey + 1 + i))

/-! ## Help/discovery fallback (`show_human_help`) -/

/-- The table header of `show_human_help`. -/
def headerHtml : String :=
  "<html><body><table border=1><th>Possible commands:</th><th>Method</th><th>Description</th>"

/-- The `permmap` of `show_human_help`: only the permission strings `"r"`
and `"rw"` are mapped; any other permission raises `KeyError`. -/
def permmapLookup (p : String) : Option String :=
  (([("r", "GET"), ("rw", "PUT")] : List (String × String)).find?
    (fun kv => kv.1 == p)).map (fun kv => kv.2)

/-- The flavor-aware concise form `show_human_help` matches the prefix
against. -/
def flavoredConcise (c : CmdDict) : String :=
  let con := concise_sig c.sig
  let con := if c.flavor == "pgid" then "pg/<pgid>/" ++ con else con
  if c.flavor == "tellosd" then "tell/<osdid>/" ++ con else con

/-- Modelled from the spec: `descsort` from `ceph_argparse` (repository
code not under `src/`): the stable descriptor ordering used by the
discovery fallback, here by concise signature. -/
def descLe (a b : CmdDict) : Bool :=
  strLe (concise_sig a.sig) (concise_sig b.sig)

/-- The catalog values in the order `show_human_help` scans them. -/
def sortedCmds (g : Glob) : List CmdDict :=
  pySorted descLe (g.sigdict.map (fun kv => kv.2))

/-- The body of `show_human_help`'s loop: accumulate the table rows for
matching entries; an `Except.error` models the `KeyError` raised when a
matching entry's permission is not in `permmap`.  The state carries the
accumulated string `s` and the current value of the `line` variable. -/
def shhFold (pre : String) :
    List CmdDict → String → List String → Except String (String × List String)
  | [], s, line => Except.ok (s, line)
  | c :: rest, s, line =>
    if pyStartsWith (flavoredConcise c) pre then
      let wrapped := textwrapWrap (concise_sig_for_uri c.sig c.flavor) 40
      match permmapLookup c.perm with
      | none => Except.error ("KeyError: " ++ c.perm)
      | some m =>
        let newline :=
          ["<tr><td>"] ++ wrapped.map (fun sl => escapeHtml sl ++ "\n") ++
          ["</td><td>", m, "</td><td>", escapeHtml c.help, "</td></tr>\n"]
        shhFold pre rest (s ++ String.join newline) newline
    else
      shhFold pre rest s line

/-- `show_human_help`: dump a table of catalog commands matching `pre`;
returns `""` when nothing matched, and an error models the uncaught
`KeyError` on a matching entry whose permission is not `"r"` or `"rw"`. -/
def show_human_help (g : Glob) (pre : String) : Except String String :=
  match shhFold pre (sortedCmds g) headerHtml [] with
  | Except.error e => Except.error e
  | Except.ok p =>
    Except.ok (if p.2.isEmpty then "" else p.1 ++ "</table></body></html>")

/-! ## Response formatter (`make_response`) -/

/-- The XML envelope of `make_response` (only the status is escaped). -/
def xmlEnvelope (out statusmsg : String) : String :=
  "\n<response>\n  <output>\n    " ++ out ++
  "\n  </output>\n  <status>\n    " ++ xmlEscape statusmsg ++
  "\n  </status>\n</response>"

/-- `make_response`: wrap the output and status in the requested format.
For JSON formats the raw output (or `'[]'` when empty) is parsed and
re-serialized inside an envelope object; a parse failure yields the
HTTP 500 decoding error.  No Content-Type is set here. -/
def make_response (fmt : Option String) (output statusmsg : String)
    (errorcode : Nat) : Resp :=
  if pyTruthy fmt then
    let f := pyOr fmt ""
    if strIn "json" f then
      match json_loads (pyOrS output "[]") with
      | some parsedOut =>
        ⟨json_dumps (Json.obj [("output", parsedOut), ("status", Json.str statusmsg)]),
         errorcode, none⟩
      | none => ⟨"Error decoding JSON from " ++ output, 500, none⟩
    else if strIn "xml" f then
      ⟨xmlEnvelope output statusmsg, errorcode, none⟩
    else
      ⟨output, errorcode, none⟩
  else
    ⟨output, errorcode, none⟩

/-! ## Request dispatcher (`handler`) -/

/-- The endpoint path the handler computes: the catch-all path or the
Flask endpoint name, with any `.<fmt>` suffix removed and a leading slash
ensured. -/
def epOf (catchallPath : Option String) (endpoint : String) : String :=
  let e := pyReplace (pyOr catchallPath endpoint) ".<fmt>" ""
  if pyStartsWith e "/" then e else "/" ++ e

/-- `' '.join(s.split('/')).strip()`. -/
def pySplitJoin (s : String) : String :=
  pyStrip (" ".intercalate (pySplit s "/"))

/-- `' '.join(s.split('/')[2:]).strip()`. -/
def pySplitJoinFrom2 (s : String) : String :=
  pyStrip (" ".intercalate ((pySplit s "/").drop 2))

/-- Format resolution, lines 402–406: a truthy explicit path-suffix format
stands; otherwise the Accept values are consulted, JSON before XML. -/
def resolveFmt (fmt : Option String) (accept : List String) : Option String :=
  if pyTruthy fmt then fmt
  else if accept.contains "application/json" then some "json"
  else if accept.contains "application/xml" then some "xml"
  else fmt

/-- The result of the target-resolution section, lines 408–429: the
`valid` flag and `reason` recorded on a parse failure, the `target` and
`pgid` variables, and the `prefix` collected so far (possibly empty). -/
structure TRes where
  valid : Bool
  reason : String
  target : TargetV
  pgid : Option String
  pre : String
deriving DecidableEq

/-- Target resolution, lines 408–429 of the source. -/
def resolveTarget (relEp : String) (args : List (String × List String))
    (target : Option String) : TRes :=
  if pyTruthy target then
    let t := pyOr target ""
    match cephOsdNameValid t with
    | Except.ok p => ⟨true, "", TargetV.pair p.1 p.2, none, pySplitJoinFrom2 relEp⟩
    | Except.error e => ⟨false, e, TargetV.raw t, none, ""⟩
  else if relEp == "pg" && (args.any (fun kv => kv.1 == "pgid")) then
    let pg := match args.find? (fun kv => kv.1 == "pgid") with
      | some kv => kv.2.headD ""
      | none => ""
    ⟨true, "", TargetV.pair "pg" pg, some pg, ""⟩
  else
    ⟨true, "",
     (match target with | some s => TargetV.raw s | none => TargetV.tnone),
     none, ""⟩

/-- The prefix the handler sends to the backend: the target section's
prefix when nonempty, otherwise all path segments joined by spaces. -/
def prefixOf (g : Glob) (req : Request) (catchallPath target : Option String) :
    String :=
  let relEp := (epOf catchallPath req.endpoint).drop (g.baseurl.length + 1)
  let tr := resolveTarget relEp req.args target
  if tr.pre.isEmpty then pySplitJoin relEp else tr.pre

/-- Modelled from the spec: `validate` from `ceph_argparse` (repository
code not under `src/`): bind the request's query parameters against a
parameter signature — unknown extra parameters are rejected, required
parameters must be present; per-type conversion is the external capability
the spec excludes, so a supplied value for a declared parameter is
accepted.  The error strings model the raised `ArgumentError`. -/
def validate (args : List (String × PyVal)) (paramsig : List ArgDesc) :
    Except String (List (String × PyVal)) :=
  match args.find? (fun kv => !(paramsig.map (fun d => d.name)).contains kv.1) with
  | some kv => Except.error ("unused argument " ++ kv.1)
  | none =>
    match paramsig.find?
        (fun d => d.req && !(args.map (fun kv => kv.1)).contains d.name) with
    | some d => Except.error ("missing required parameter " ++ d.name)
    | none => Except.ok args

/-- The per-URL request arguments as the handler builds them: a key with a
single value becomes that value, a repeated key its value list. -/
def argsToDict (args : List (String × List String)) : List (String × PyVal) :=
  args.map (fun kv =>
    match kv.2 with
    | [x] => (kv.1, PyVal.pstr x)
    | l => (kv.1, PyVal.plist l))

/-- The outcome of the handler's overload-matching loop. -/
inductive LoopOut where
  | helpResp (r : Resp)
  | found (u : UrlDict) (ad : List (String × PyVal))
  | notFound (exc : String)
deriving DecidableEq

/-- The overload-matching loop, lines 443–477: skip entries whose methods
exclude the request's method; a `help` query short-circuits with the help
text; entries with parameters are matched by `validate` (errors
accumulate in `exc`), entries without parameters match only a request
without query arguments. -/
def urlLoop (method : String) (args : List (String × List String))
    (pre : String) : List UrlDict → String → LoopOut
  | [], exc => LoopOut.notFound exc
  | u :: rest, exc =>
    if !u.methods.contains method then urlLoop method args pre rest exc
    else if args.any (fun kv => kv.1 == "help") then
      LoopOut.helpResp
        ⟨pre ++ concise_sig u.paramsig ++ ": " ++ u.help, 200, some "text/plain"⟩
    else if !u.paramsig.isEmpty then
      match validate (argsToDict args) u.paramsig with
      | Except.ok ad => LoopOut.found u ad
      | Except.error e => urlLoop method args pre rest (exc ++ e)
    else if !args.isEmpty then urlLoop method args pre rest exc
    else LoopOut.found u []

/-- Lines 482–504: inject the derived fields into the argument mapping
(overwriting any client-supplied `format`), default the target to the
monitor, invoke the collaborator and build the response, setting the
Content-Type from the resolved format. -/
def execPart (jc : JsonCmd) (req : Request) (fm : Option String) (tr : TRes)
    (pre : String) (u : UrlDict) (ad : List (String × PyVal)) :
    Except String Resp :=
  let ad := dictSet ad "format" (PyVal.pstr (pyOr fm "plain"))
  let ad := dictSet ad "module" (PyVal.pstr u.module)
  let ad := dictSet ad "perm" (PyVal.pstr u.perm)
  let ad := match tr.pgid with
    | some p => if p.isEmpty then ad else dictSet ad "pgid" (PyVal.pstr p)
    | none => ad
  let tgt := if tvTruthy tr.target then tr.target else TargetV.pair "mon" ""
  let r := jc pre tgt req.data ad
  if r.1 ≠ 0 then
    Except.ok (make_response fm ""
      ("Error: " ++ r.2.2 ++ " (" ++ toString r.1 ++ ")") 400)
  else
    let resp := make_response fm r.2.1 (pyOrS r.2.2 "OK") 200
    let ct :=
      if pyTruthy fm then "application/" ++ pyReplace (pyOr fm "") "-pretty" ""
      else "text/plain"
    Except.ok ⟨resp.body, resp.status, some ct⟩

/-- `handler`: the generic endpoint handler, lines 384–504.  An
`Except.error` models an uncaught Python exception (Flask would turn it
into a 500 Internal Server Error). -/
def handler (g : Glob) (jc : JsonCmd) (req : Request)
    (catchallPath fmt target : Option String) : Except String Resp :=
  let ep := epOf catchallPath req.endpoint
  if pyStartsWith ep g.baseurl then
    let relEp := ep.drop (g.baseurl.length + 1)
    let fm := resolveFmt fmt req.accept
    let tr := resolveTarget relEp req.args target
    let pre := prefixOf g req catchallPath target
    if hasKey g.urls ep then
      match urlLoop req.method req.args pre (lookupD g.urls ep []) "" with
      | LoopOut.helpResp r => Except.ok r
      | LoopOut.notFound exc => Except.ok (make_response fm "" (exc ++ "\n") 400)
      | LoopOut.found u ad => execPart jc req fm tr pre u ad
    else
      match show_human_help g pre with
      | Except.error e => Except.error e
      | Except.ok helptext =>
        if helptext.isEmpty then
          Except.ok (make_response fm "" ("Invalid endpoint " ++ ep) 400)
        else
          Except.ok ⟨helptext, 400, some "text/html"⟩
  else
    Except.ok (make_response fmt "" "Page not found" 404)

/-! ## Concrete fixtures used by witnesses and counterexamples -/

/-- Whether an `Except` computation succeeded. -/
def isOkE : Except ε α → Bool
  | Except.ok _ => true
  | Except.error _ => false

/-- A collaborator stub that always succeeds with empty output. -/
def jcDummy : JsonCmd := fun _ _ _ _ => (0, "", "")

/-- A collaborator stub that echoes the target it was handed. -/
def jcEchoTarget : JsonCmd := fun _ tgt _ _ =>
  (0,
   (match tgt with
    | TargetV.raw s => "RAW:" ++ s
    | TargetV.pair a b => a ++ "." ++ b
    | TargetV.tnone => "NONE"),
   "")

/-- A collaborator stub that reports the `format` argument it was handed
as the status message, with an empty-list JSON output. -/
def jcEchoFormat : JsonCmd := fun _ _ _ ad =>
  (0, "[]",
   (match dictGet ad "format" with
    | some (PyVal.pstr s) => s
    | _ => "?"))

/-- Globals with an empty route table and an empty catalog. -/
def gEmpty : Glob := ⟨[], [], "/api/v0.1"⟩

/-- A GET request with no Accept values and no query arguments. -/
def reqPlain : Request := ⟨"GET", "", [], [], ""⟩

/-- A compiled `tellosd` route entry with no residual parameters. -/
def udTell : UrlDict := ⟨[], "tellhelp", "osd", "r", "tellosd", ["GET"]⟩

/-- Globals holding only the `tellosd` route. -/
def gTell : Glob := ⟨[("/api/v0.1/tell/<target>/version", [udTell])], [], "/api/v0.1"⟩

/-- A GET request addressed at the `tellosd` route. -/
def reqTell : Request := ⟨"GET", "/api/v0.1/tell/<target>/version", [], [], ""⟩

/-- A one-prefix `status` descriptor with read permission. -/
def cmdStatusR : CmdDict :=
  ⟨[⟨ArgKind.cephPrefix, "", true, "status", []⟩], "show status", "mon", "r", "mon"⟩

/-- The same descriptor with write permission. -/
def cmdStatusW : CmdDict :=
  ⟨[⟨ArgKind.cephPrefix, "", true, "status", []⟩], "set status", "mon", "w", "mon"⟩

/-- The same descriptor with read-write permission. -/
def cmdStatusRW : CmdDict :=
  ⟨[⟨ArgKind.cephPrefix, "", true, "status", []⟩], "status", "mon", "rw", "mon"⟩

/-- Primary-catalog entries whose keys defeat the lexicographic maximum. -/
def cmdTen : CmdDict := ⟨[], "primary ten", "mon", "r", ""⟩

/-- A second primary-catalog entry. -/
def cmdNine : CmdDict := ⟨[], "primary nine", "mon", "r", ""⟩

/-- A secondary-catalog entry (compiles to a non-`pg` concise form). -/
def cmdOsd : CmdDict :=
  ⟨[⟨ArgKind.cephPrefix, "", true, "version", []⟩], "secondary", "osd", "r", ""⟩

/-- An `otherType` required parameter named `x`. -/
def descParamX : ArgDesc := ⟨ArgKind.otherType, "x", true, "", []⟩

/-- An `otherType` optional parameter named `x`. -/
def descOptX : ArgDesc := ⟨ArgKind.otherType, "x", false, "", []⟩

/-- A required single-literal choices descriptor. -/
def descChoiceYes : ArgDesc := ⟨ArgKind.cephChoices, "c", true, "", ["yes"]⟩

/-- A route entry whose parameter signature is one optional parameter. -/
def udOptOnly : UrlDict := ⟨[descOptX], "opt", "mon", "r", "mon", ["GET"]⟩

/-- A route entry declaring a single optional `format` parameter. -/
def udFmtParam : UrlDict :=
  ⟨[⟨ArgKind.otherType, "format", false, "", []⟩], "fmt", "mon", "r", "mon", ["GET"]⟩

/-- Globals holding only the `format`-parameter route. -/
def gFmt : Glob := ⟨[("/api/v0.1/foo", [udFmtParam])], [], "/api/v0.1"⟩

/-- A GET request on that route that supplies an explicit `format=xml`
query parameter and declares `application/json` acceptable. -/
def reqFmt : Request :=
  ⟨"GET", "/api/v0.1/foo", ["application/json"], [("format", ["xml"])], ""⟩

/-- A catalog entry with write-only permission (not in `permmap`). -/
def cmdPermW : CmdDict :=
  ⟨[⟨ArgKind.cephPrefix, "", true, "osd", []⟩], "h", "osd", "w", "mon"⟩

/-- Globals whose catalog holds only the write-only entry. -/
def gPermW : Glob := ⟨[], [("cmd000", cmdPermW)], "/api/v0.1"⟩

/-- A catalog entry with read permission. -/
def cmdPermR : CmdDict :=
  ⟨[⟨ArgKind.cephPrefix, "", true, "osd", []⟩], "h", "osd", "r", "mon"⟩

/-- Globals whose catalog holds only the read entry. -/
def gPermR : Glob := ⟨[], [("cmd000", cmdPermR)], "/api/v0.1"⟩

/-! ## Helper lemmas -/

theorem mem_insertSorted {le : α → α → Bool} {x y : α} {l : List α} :
    x ∈ insertSorted le y l ↔ x = y ∨ x ∈ l := by
  induction l with
  | nil => simp [insertSorted]
  | cons z zs ih =>
    simp only [insertSorted]
    split
    · simp
    · simp only [List.mem_cons, ih]
      tauto

theorem mem_pySorted {le : α → α → Bool} {x : α} {l : List α} :
    x ∈ pySorted le l ↔ x ∈ l := by
  induction l with
  | nil => simp [pySorted]
  | cons z zs ih =>
    show x ∈ insertSorted le z (pySorted le zs) ↔ _
    rw [mem_insertSorted]
    simp only [List.mem_cons]
    rw [ih]

theorem permmapLookup_none_of_other {p : String} (hr : p ≠ "r") (hrw : p ≠ "rw") :
    permmapLookup p = none := by
  have h1 : ("r" == p) = false := beq_eq_false_iff_ne.mpr (fun h => hr h.symm)
  have h2 : ("rw" == p) = false := beq_eq_false_iff_ne.mpr (fun h => hrw h.symm)
  simp [permmapLookup, List.find?, h1, h2]

theorem shhFold_error_of_bad {pre : String} :
    ∀ (l : List CmdDict) (s : String) (line : List String) (c : CmdDict),
      c ∈ l → pyStartsWith (flavoredConcise c) pre = true →
      permmapLookup c.perm = none →
      isOkE (shhFold pre l s line) = false := by
  intro l
  induction l with
  | nil =>
    intro s line c hc
    cases hc
  | cons d rest ih =>
    intro s line c hc hm hp
    rcases List.mem_cons.mp hc with rfl | hc'
    · simp only [shhFold, hm, if_true, hp]
      rfl
    · simp only [shhFold]
      split
      · cases hdp : permmapLookup d.perm with
        | none =>
          simp only [hdp]
          rfl
        | some m =>
          simp only [hdp]
          exact ih _ _ c hc' hm hp
      · exact ih _ _ c hc' hm hp

theorem shhFold_ok_of_good {pre : String} :
    ∀ (l : List CmdDict) (s : String) (line : List String),
      (∀ c ∈ l, pyStartsWith (flavoredConcise c) pre = true →
        permmapLookup c.perm ≠ none) →
      isOkE (shhFold pre l s line) = true := by
  intro l
  induction l with
  | nil =>
    intro s line _
    rfl
  | cons d rest ih =>
    intro s line h
    simp only [shhFold]
    split
    · cases hdp : permmapLookup d.perm with
      | none =>
        exact absurd hdp (h d (List.mem_cons_self d rest) (by assumption))
      | some m =>
        simp only [hdp]
        exact ih _ _ (fun c hc => h c (List.mem_cons_of_mem d hc))
    · exact ih _ _ (fun c hc => h c (List.mem_cons_of_mem d hc))

/-! ## Claim theorems -/

/-- Claim C3 (amended): in `api_setup`'s permission-to-methods loop the
later `METHOD_DICT` entry wins outright — a permission containing `"w"`
yields exactly PUT and DELETE (even when it also contains `"r"`), a
permission containing `"r"` but not `"w"` yields exactly GET, and a
permission containing neither leaves the `methods` variable at its
previous value. -/
theorem c3_amended (perm : String) (carry : Option (List String)) :
    (strIn "w" perm = true → methodUpdate perm carry = some ["PUT", "DELETE"])
    ∧ (strIn "w" perm = false → strIn "r" perm = true →
        methodUpdate perm carry = some ["GET"])
    ∧ (strIn "w" perm = false → strIn "r" perm = false →
        methodUpdate perm carry = carry) := by
  refine ⟨?_, ?_, ?_⟩
  · intro hw
    simp [methodUpdate, METHOD_DICT, hw]
  · intro hw hr
    simp [methodUpdate, METHOD_DICT, hw, hr]
  · intro hw hr
    simp [methodUpdate, METHOD_DICT, hw, hr]

/-- Witness for C3 (amended) at the permissions `"rw"`, `"r"` and `"x"`. -/
theorem c3_amended_witness :
    methodUpdate "rw" none = some ["PUT", "DELETE"]
    ∧ methodUpdate "r" (some ["X"]) = some ["GET"]
    ∧ methodUpdate "x" (some ["X"]) = some ["X"] :=
  ⟨(c3_amended "rw" none).1 rfl,
   (c3_amended "r" (some ["X"])).2.1 rfl rfl,
   (c3_amended "x" (some ["X"])).2.2 rfl rfl⟩

/-- Claim C3 counterexample: a catalog descriptor with permission `"rw"`
compiles to a RouteEntry whose methods are PUT and DELETE only — GET is
absent, so `"r"` in the permission did not contribute GET as the claim
states. -/
theorem c3_counterexample :
    firstUrlDictMethods (buildUrls "/api/v0.1" [("cmd000", cmdStatusRW)])
        "/api/v0.1/status" = some ["PUT", "DELETE"]
    ∧ ("GET" ∈ (["PUT", "DELETE"] : List String) → False) := by
  exact ⟨rfl, by decide⟩

/-- Claim C8: when a JSON format is requested, `make_response` parses the
raw output as JSON (an empty output counts as an empty list) and wraps it
as an object with `output` and `status` members at the given status code;
a nonempty output that is not valid JSON yields the HTTP 500 decoding
error. -/
theorem c8_json_format (fmt : Option String) (out msg : String) (code : Nat)
    (hf : pyTruthy fmt = true) (hj : strIn "json" (pyOr fmt "") = true) :
    (out = "" → make_response fmt out msg code =
      ⟨json_dumps (Json.obj [("output", Json.arr []), ("status", Json.str msg)]),
       code, none⟩)
    ∧ (∀ j, json_loads (pyOrS out "[]") = some j →
        make_response fmt out msg code =
          ⟨json_dumps (Json.obj [("output", j), ("status", Json.str msg)]),
           code, none⟩)
    ∧ (out ≠ "" → json_loads out = none →
        make_response fmt out msg code =
          ⟨"Error decoding JSON from " ++ out, 500, none⟩) := by
  refine ⟨?_, ?_, ?_⟩
  · intro h
    subst h
    simp only [make_response, hf, hj, if_true]
    rfl
  · intro j hjv
    simp only [make_response, hf, hj, if_true, hjv]
  · intro hne hnone
    have hie : out.isEmpty = false := by
      cases h : out.isEmpty with
      | false => rfl
      | true => exact absurd ((String.isEmpty_iff out).mp h) hne
    have hout : pyOrS out "[]" = out := by
      simp [pyOrS, hie]
    simp only [make_response, hf, hj, if_true, hout, hnone]

/-- Witness for C8 at empty, valid and invalid collaborator outputs. -/
theorem c8_json_format_witness :
    make_response (some "json") "" "done" 200 =
      ⟨json_dumps (Json.obj [("output", Json.arr []), ("status", Json.str "done")]),
       200, none⟩
    ∧ make_response (some "json-pretty") "[1, 2]" "done" 200 =
      ⟨json_dumps (Json.obj
          [("output", Json.arr [Json.num "1", Json.num "2"]),
           ("status", Json.str "done")]), 200, none⟩
    ∧ make_response (some "json") "nope" "done" 200 =
      ⟨"Error decoding JSON from nope", 500, none⟩ :=
  ⟨(c8_json_format (some "json") "" "done" 200 rfl rfl).1 rfl,
   (c8_json_format (some "json-pretty") "[1, 2]" "done" 200 rfl rfl).2.1
     (Json.arr [Json.num "1", Json.num "2"]) rfl,
   (c8_json_format (some "json") "nope" "done" 200 rfl rfl).2.2 (by decide) rfl⟩

/-- Claim C10: the discovery-fallback help renderer is total only for
catalog entries whose permission is exactly `"r"` or `"rw"`: when every
prefix-matching entry has one of those permissions the render succeeds,
and when any prefix-matching entry has another permission the render
raises the `permmap` `KeyError` instead of returning a document. -/
theorem c10_permmap_totality (g : Glob) (pre : String) :
    ((∀ c ∈ g.sigdict.map (fun kv => kv.2),
        pyStartsWith (flavoredConcise c) pre = true →
        c.perm = "r" ∨ c.perm = "rw") →
      isOkE (show_human_help g pre) = true)
    ∧ ((∃ c, c ∈ g.sigdict.map (fun kv => kv.2) ∧
        pyStartsWith (flavoredConcise c) pre = true ∧
        c.perm ≠ "r" ∧ c.perm ≠ "rw") →
      isOkE (show_human_help g pre) = false) := by
  constructor
  · intro h
    have hall : ∀ c ∈ sortedCmds g,
        pyStartsWith (flavoredConcise c) pre = true → permmapLookup c.perm ≠ none := by
      intro c hc hm
      have hcm : c ∈ g.sigdict.map (fun kv => kv.2) := mem_pySorted.mp hc
      rcases h c hcm hm with h' | h' <;> simp [permmapLookup, h']
    have hok := shhFold_ok_of_good (sortedCmds g) headerHtml [] hall
    unfold show_human_help
    cases he : shhFold pre (sortedCmds g) headerHtml [] with
    | error e =>
      rw [he] at hok
      simp [isOkE] at hok
    | ok p => rfl
  · rintro ⟨c, hc, hm, hr, hrw⟩
    have hp : permmapLookup c.perm = none := permmapLookup_none_of_other hr hrw
    have hbad := shhFold_error_of_bad (sortedCmds g) headerHtml [] c
      (mem_pySorted.mpr hc) hm hp
    unfold show_human_help
    cases he : shhFold pre (sortedCmds g) headerHtml [] with
    | error e => rfl
    | ok p =>
      rw [he] at hbad
      simp [isOkE] at hbad

/-- Witness for C10: a write-only matching entry breaks the render, an
all-read catalog renders. -/
theorem c10_permmap_totality_witness :
    isOkE (show_human_help gPermW "") = false
    ∧ isOkE (show_human_help gPermR "") = true :=
  ⟨(c10_permmap_totality gPermW "").2
     ⟨cmdPermW, by decide, rfl, by decide, by decide⟩,
   (c10_permmap_totality gPermR "").1 (by decide)⟩

theorem digitChar_isDigit (d : Nat) : (digitChar d).isDigit = true := by
  unfold digitChar
  split_ifs <;> rfl

theorem digitChar_toNat {d : Nat} (h : d < 10) : (digitChar d).toNat = 48 + d := by
  interval_cases d <;> rfl

theorem natToStrAux_digits :
    ∀ (fuel n : Nat), ∀ c ∈ natToStrAux fuel n, c.isDigit = true := by
  intro fuel
  induction fuel with
  | zero =>
    intro n c hc
    cases hc
  | succ f ih =>
    intro n c hc
    rw [natToStrAux] at hc
    split at hc
    · rcases List.mem_singleton.mp hc with rfl
      exact digitChar_isDigit n
    · rcases List.mem_append.mp hc with h' | h'
      · exact ih _ c h'
      · rcases List.mem_singleton.mp h' with rfl
        exact digitChar_isDigit (n % 10)

theorem natToStrAux_foldl :
    ∀ (fuel n a : Nat), n < 10 ^ fuel →
      (natToStrAux fuel n).foldl (fun a c => a * 10 + (c.toNat - 48)) a =
        a * 10 ^ (natToStrAux fuel n).length + n := by
  intro fuel
  induction fuel with
  | zero =>
    intro n a hn
    have : n = 0 := by omega
    subst this
    simp [natToStrAux]
  | succ f ih =>
    intro n a hn
    rw [natToStrAux]
    split
    · rename_i h10
      simp only [List.foldl_cons, List.foldl_nil, List.length_singleton]
      rw [digitChar_toNat h10]
      omega
    · rename_i h10
      push_neg at h10
      have hdiv : n / 10 < 10 ^ f := by
        rw [Nat.div_lt_iff_lt_mul (by omega)]
        calc n < 10 ^ (f + 1) := hn
        _ = 10 ^ f * 10 := by ring
      rw [List.foldl_append, List.length_append, ih _ a hdiv]
      simp only [List.foldl_cons, List.foldl_nil, List.length_singleton]
      rw [digitChar_toNat (Nat.mod_lt n (by omega))]
      have hmod := Nat.div_add_mod n 10
      rw [pow_succ]
      ring_nf
      omega

theorem replaceFuel_cmd (fuel : Nat) (ds : List Char) :
    replaceFuel ['c', 'm', 'd'] [] (fuel + 1) ('c' :: 'm' :: 'd' :: ds) =
      replaceFuel ['c', 'm', 'd'] [] fuel ds := by
  simp [replaceFuel, List.isPrefixOf]

theorem replaceFuel_digits :
    ∀ (ds : List Char), (∀ c ∈ ds, c.isDigit = true) →
      ∀ fuel, replaceFuel ['c', 'm', 'd'] [] fuel ds = ds := by
  intro ds
  induction ds with
  | nil =>
    intro _ fuel
    cases fuel <;> rfl
  | cons c rest ih =>
    intro h fuel
    cases fuel with
    | zero => rfl
    | succ f =>
      have hc : c.isDigit = true := h c (List.mem_cons_self c rest)
      have hcc : ('c' == c) = false := by
        apply beq_eq_false_iff_ne.mpr
        intro he
        rw [← he] at hc
        simp at hc
      simp only [replaceFuel, List.isPrefixOf, hcc, Bool.false_and, Bool.and_false,
        Bool.false_eq_true, if_false]
      rw [ih (fun x hx => h x (List.mem_cons_of_mem c hx)) f]

theorem numOfKey_cmd (j : Nat) : numOfKey ("cmd" ++ natToStr j) = j := by
  have hlist : ("cmd" ++ natToStr j).toList = 'c' :: 'm' :: 'd' :: natToStrAux (j + 1) j := by
    show ("cmd" ++ natToStr j).data = _
    rw [String.data_append]
    rfl
  have hdig := natToStrAux_digits (j + 1) j
  unfold numOfKey pyReplace
  rw [hlist]
  have hlen : ('c' :: 'm' :: 'd' :: natToStrAux (j + 1) j).length + 1 =
      ((natToStrAux (j + 1) j).length + 3) + 1 := by
    simp
  rw [hlen]
  have h1 : ("cmd".toList) = ['c', 'm', 'd'] := rfl
  have h2 : ("".toList) = ([] : List Char) := rfl
  rw [h1, h2, replaceFuel_cmd, replaceFuel_digits _ hdig]
  show pyInt (String.mk (natToStrAux (j + 1) j)) = j
  have hbound : j < 10 ^ (j + 1) :=
    lt_of_lt_of_le (Nat.lt_pow_self (by norm_num) j)
      (Nat.pow_le_pow_right (by norm_num) (Nat.le_succ j))
  have := natToStrAux_foldl (j + 1) j 0 hbound
  unfold pyInt
  show (natToStrAux (j + 1) j).foldl _ 0 = j
  rw [this]
  ring

theorem dictGet_map_overwrite {α : Type} (d : List (String × α)) (k' k : String)
    (v : α) (h : (k' == k) = false) :
    dictGet (d.map (fun kv => if kv.1 == k' then (k', v) else kv)) k = dictGet d k := by
  induction d with
  | nil => rfl
  | cons kv rest ih =>
    simp only [List.map_cons]
    by_cases hkv : (kv.1 == k') = true
    · have hk1 : kv.1 = k' := eq_of_beq hkv
      have hkvk : (kv.1 == k) = false := by
        rw [hk1]
        exact h
      rw [if_pos hkv]
      unfold dictGet
      rw [List.find?_cons_of_neg _ (by simp [h]), List.find?_cons_of_neg _ (by simp [hkvk])]
      exact ih
    · rw [if_neg hkv]
      unfold dictGet
      by_cases hkvk : (kv.1 == k) = true
      · rw [List.find?_cons_of_pos _ (by simp [hkvk]), List.find?_cons_of_pos _ (by simp [hkvk])]
      · rw [List.find?_cons_of_neg _ (by simp [hkvk]), List.find?_cons_of_neg _ (by simp [hkvk])]
        exact ih

theorem dictGet_append_single {α : Type} (d : List (String × α)) (k' k : String)
    (v : α) (h : (k' == k) = false) :
    dictGet (d ++ [(k', v)]) k = dictGet d k := by
  unfold dictGet
  rw [List.find?_append]
  have : List.find? (fun kv => kv.1 == k) [(k', v)] = none := by
    simp [List.find?, h]
  rw [this, Option.or_none]

theorem dictGet_dictSet_ne {α : Type} (d : List (String × α)) (k' k : String)
    (v : α) (h : k' ≠ k) :
    dictGet (dictSet d k' v) k = dictGet d k := by
  have hbe : (k' == k) = false := beq_eq_false_iff_ne.mpr h
  unfold dictSet
  split
  · exact dictGet_map_overwrite d k' k v hbe
  · exact dictGet_append_single d k' k v hbe

theorem mergeFold_preserve (k : String) :
    ∀ (osd : List (String × CmdDict)) (acc : List (String × CmdDict)) (ctr : Nat),
      numOfKey k < ctr →
      dictGet ((osd.foldl mergeStep (acc, ctr)).1) k = dictGet acc k := by
  intro osd
  induction osd with
  | nil =>
    intro acc ctr _
    rfl
  | cons kv rest ih =>
    intro acc ctr hlt
    have hne : ("cmd" ++ natToStr ctr) ≠ k := by
      intro he
      have := numOfKey_cmd ctr
      rw [he] at this
      omega
    show dictGet ((rest.foldl mergeStep (mergeStep (acc, ctr) kv)).1) k = _
    have hstep : mergeStep (acc, ctr) kv =
        (dictSet acc ("cmd" ++ natToStr ctr)
          ⟨kv.2.sig, kv.2.help, kv.2.module, kv.2.perm,
           if pyStartsWith (concise_sig kv.2.sig) "pg" then "pgid" else "tellosd"⟩,
         ctr + 1) := rfl
    rw [hstep, ih _ (ctr + 1) (by omega), dictGet_dictSet_ne _ _ _ _ hne]

/-- Claim C5 counterexample: with primary keys `cmd10` and `cmd9` the
lexicographically greatest key is `cmd9`, so the first secondary key is
`cmd10` — it collides with and overwrites the primary entry `cmd10`,
refuting "no secondary key collides with a primary key" for every pair of
catalogs. -/
theorem c5_counterexample :
    mergeOsdSigdict [("cmd10", cmdTen), ("cmd9", cmdNine)] [("cmdX", cmdOsd)] =
      [("cmd10", ⟨cmdOsd.sig, cmdOsd.help, cmdOsd.module, cmdOsd.perm, "tellosd"⟩),
       ("cmd9", ⟨cmdNine.sig, cmdNine.help, cmdNine.module, cmdNine.perm, "mon"⟩)]
    ∧ dictGet (mergeOsdSigdict [("cmd10", cmdTen), ("cmd9", cmdNine)] [("cmdX", cmdOsd)])
        "cmd10" ≠
      some ⟨cmdTen.sig, cmdTen.help, cmdTen.module, cmdTen.perm, "mon"⟩ := by
  exact ⟨rfl, by decide⟩

/-- Claim C5 (amended): the merge renumbers secondary keys to start
immediately after the numeric value of the lexicographically greatest
primary key (`int` of `sorted(keys)[-1]` with `cmd` removed), not the
numeric maximum; whenever every primary key's numeric value is at most
that value (as with uniformly zero-padded keys), no secondary key collides
with a primary key and every primary entry survives the merge unchanged. -/
theorem c5_amended (monSig osdSig : List (String × CmdDict))
    (h1 : ∀ k ∈ monSig.map (fun kv => kv.1),
        numOfKey k ≤ numOfKey (lexMaxKey (monSig.map (fun kv => kv.1)))) :
    (∀ k ∈ monSig.map (fun kv => kv.1), k ∉ osdNewKeys monSig osdSig)
    ∧ (∀ k ∈ monSig.map (fun kv => kv.1),
        dictGet (mergeOsdSigdict monSig osdSig) k =
          dictGet (monSig.map (fun kv => (kv.1, { kv.2 with flavor := "mon" }))) k) := by
  have hkeys : (monSig.map (fun kv => (kv.1, { kv.2 with flavor := "mon" }))).map
      (fun kv => kv.1) = monSig.map (fun kv => kv.1) := by
    simp
  constructor
  · intro k hk hmem
    unfold osdNewKeys at hmem
    simp only [hkeys] at hmem
    rcases List.mem_map.mp hmem with ⟨i, _, hkeq⟩
    have := numOfKey_cmd (numOfKey (lexMaxKey (monSig.map (fun kv => kv.1))) + 1 + i)
    rw [hkeq] at this
    have hle := h1 k hk
    omega
  · intro k hk
    unfold mergeOsdSigdict
    simp only [hkeys]
    exact mergeFold_preserve k osdSig _ _ (by have := h1 k hk; omega)

/-- Witness for C5 (amended) at a primary catalog whose keys respect the
lexicographic maximum. -/
theorem c5_amended_witness :
    ("cmd1" ∉ osdNewKeys [("cmd1", cmdNine), ("cmd2", cmdTen)] [("cmdX", cmdOsd)])
    ∧ dictGet (mergeOsdSigdict [("cmd1", cmdNine), ("cmd2", cmdTen)] [("cmdX", cmdOsd)])
        "cmd1" =
      dictGet (([("cmd1", cmdNine), ("cmd2", cmdTen)]).map
        (fun kv => (kv.1, { kv.2 with flavor := "mon" }))) "cmd1" := by
  have h := c5_amended [("cmd1", cmdNine), ("cmd2", cmdTen)] [("cmdX", cmdOsd)]
    (by decide)
  exact ⟨h.1 "cmd1" (by decide), h.2 "cmd1" (by decide)⟩

theorem append_fmt_beq_false (u : String) : ((u ++ ".<fmt>") == u) = false := by
  apply beq_eq_false_iff_ne.mpr
  intro h
  have := congrArg String.length h
  rw [String.length_append] at this
  have h6 : (".<fmt>" : String).length = 6 := rfl
  omega

/-- Claim C4: when a read-permission descriptor and a write-permission
descriptor compile to the same RouteKey, the methods registered by the
last `add_url_rule` for that key are exactly the union
`{GET, PUT, DELETE}`, not the last entry's methods alone. -/
theorem c4_route_method_union (baseurl k1 k2 : String) (c1 c2 : CmdDict)
    (h1 : c1.perm = "r") (h2 : c2.perm = "w")
    (heq : (generate_url_and_params baseurl c2.sig c2.flavor).1 =
           (generate_url_and_params baseurl c1.sig c1.flavor).1) :
    lastRegOf (buildUrls baseurl [(k1, c1), (k2, c2)])
        (generate_url_and_params baseurl c1.sig c1.flavor).1 =
      some ["PUT", "DELETE", "GET"]
    ∧ (∀ m : String, m ∈ (["PUT", "DELETE", "GET"] : List String) ↔
        (m = "GET" ∨ m = "PUT" ∨ m = "DELETE")) := by
  rcases c1 with ⟨s1, e1, m1, p1, f1⟩
  rcases c2 with ⟨s2, e2, m2, p2, f2⟩
  simp only at h1 h2 heq ⊢
  subst h1
  subst h2
  refine ⟨?_, by intro m; simp [List.mem_cons]; tauto⟩
  have hmw : methodUpdate "w" (some ["GET"]) = some ["PUT", "DELETE"] := rfl
  have hA : buildStep baseurl ⟨[], [], none⟩ (k1, ⟨s1, e1, m1, "r", f1⟩) =
      Except.ok ⟨[((generate_url_and_params baseurl s1 f1).1,
          [⟨(generate_url_and_params baseurl s1 f1).2, e1, m1, "r", f1, ["GET"]⟩])],
        [((generate_url_and_params baseurl s1 f1).1, ["GET"]),
         ((generate_url_and_params baseurl s1 f1).1 ++ ".<fmt>", ["GET"])],
        some ["GET"]⟩ := rfl
  have hhk : hasKey [((generate_url_and_params baseurl s1 f1).1,
      [(⟨(generate_url_and_params baseurl s1 f1).2, e1, m1, "r", f1, ["GET"]⟩ : UrlDict)])]
      (generate_url_and_params baseurl s1 f1).1 = true := by
    simp [hasKey]
  have hlk : lookupD [((generate_url_and_params baseurl s1 f1).1,
      [(⟨(generate_url_and_params baseurl s1 f1).2, e1, m1, "r", f1, ["GET"]⟩ : UrlDict)])]
      (generate_url_and_params baseurl s1 f1).1 ([] : List UrlDict) =
      [⟨(generate_url_and_params baseurl s1 f1).2, e1, m1, "r", f1, ["GET"]⟩] := by
    unfold lookupD
    rw [List.find?_cons_of_pos _ (by simp)]
  have happ : appendAt [((generate_url_and_params baseurl s1 f1).1,
      [(⟨(generate_url_and_params baseurl s1 f1).2, e1, m1, "r", f1, ["GET"]⟩ : UrlDict)])]
      (generate_url_and_params baseurl s1 f1).1
      ⟨(generate_url_and_params baseurl s2 f2).2, e2, m2, "w", f2, ["PUT", "DELETE"]⟩ =
      [((generate_url_and_params baseurl s1 f1).1,
        [⟨(generate_url_and_params baseurl s1 f1).2, e1, m1, "r", f1, ["GET"]⟩,
         ⟨(generate_url_and_params baseurl s2 f2).2, e2, m2, "w", f2, ["PUT", "DELETE"]⟩])] := by
    simp [appendAt]
  have hsu : ([⟨(generate_url_and_params baseurl s1 f1).2, e1, m1, "r", f1,
      ["GET"]⟩] : List UrlDict).foldl
        (fun ms od => setUnionList ms (pySetList od.methods))
        (pySetList ["PUT", "DELETE"]) = ["PUT", "DELETE", "GET"] := rfl
  have hB : buildStep baseurl
      ⟨[((generate_url_and_params baseurl s1 f1).1,
          [⟨(generate_url_and_params baseurl s1 f1).2, e1, m1, "r", f1, ["GET"]⟩])],
        [((generate_url_and_params baseurl s1 f1).1, ["GET"]),
         ((generate_url_and_params baseurl s1 f1).1 ++ ".<fmt>", ["GET"])],
        some ["GET"]⟩ (k2, ⟨s2, e2, m2, "w", f2⟩) =
      Except.ok ⟨[((generate_url_and_params baseurl s1 f1).1,
          [⟨(generate_url_and_params baseurl s1 f1).2, e1, m1, "r", f1, ["GET"]⟩,
           ⟨(generate_url_and_params baseurl s2 f2).2, e2, m2, "w", f2, ["PUT", "DELETE"]⟩])],
        [((generate_url_and_params baseurl s1 f1).1, ["GET"]),
         ((generate_url_and_params baseurl s1 f1).1 ++ ".<fmt>", ["GET"]),
         ((generate_url_and_params baseurl s1 f1).1, ["PUT", "DELETE", "GET"]),
         ((generate_url_and_params baseurl s1 f1).1 ++ ".<fmt>", ["PUT", "DELETE", "GET"])],
        some ["PUT", "DELETE", "GET"]⟩ := by
    simp only [buildStep]
    rw [heq]
    simp only [hmw, hhk, if_true, hlk, List.foldl_cons, List.foldl_nil]
    rw [show setUnionList (pySetList ["PUT", "DELETE"]) (pySetList ["GET"]) =
        ["PUT", "DELETE", "GET"] from rfl]
    rw [happ]
    rfl
  have hbuild : buildUrls baseurl [(k1, ⟨s1, e1, m1, "r", f1⟩), (k2, ⟨s2, e2, m2, "w", f2⟩)] =
      Except.ok ⟨[((generate_url_and_params baseurl s1 f1).1,
          [⟨(generate_url_and_params baseurl s1 f1).2, e1, m1, "r", f1, ["GET"]⟩,
           ⟨(generate_url_and_params baseurl s2 f2).2, e2, m2, "w", f2, ["PUT", "DELETE"]⟩])],
        [((generate_url_and_params baseurl s1 f1).1, ["GET"]),
         ((generate_url_and_params baseurl s1 f1).1 ++ ".<fmt>", ["GET"]),
         ((generate_url_and_params baseurl s1 f1).1, ["PUT", "DELETE", "GET"]),
         ((generate_url_and_params baseurl s1 f1).1 ++ ".<fmt>", ["PUT", "DELETE", "GET"])],
        some ["PUT", "DELETE", "GET"]⟩ := by
    unfold buildUrls
    rw [List.foldlM_cons, hA]
    show buildStep baseurl _ (k2, ⟨s2, e2, m2, "w", f2⟩) >>= _ = _
    rw [hB]
    rfl
  rw [hbuild]
  unfold lastRegOf
  simp only [List.filter, beq_self_eq_true, append_fmt_beq_false]
  rfl

/-- Witness for C4 at two concrete `status` descriptors. -/
theorem c4_route_method_union_witness :
    lastRegOf (buildUrls "/api/v0.1" [("cmd000", cmdStatusR), ("cmd001", cmdStatusW)])
        (generate_url_and_params "/api/v0.1" cmdStatusR.sig cmdStatusR.flavor).1 =
      some ["PUT", "DELETE", "GET"]
    ∧ ("GET" ∈ (["PUT", "DELETE", "GET"] : List String)
       ∧ "PUT" ∈ (["PUT", "DELETE", "GET"] : List String)
       ∧ "DELETE" ∈ (["PUT", "DELETE", "GET"] : List String)) :=
  ⟨(c4_route_method_union "/api/v0.1" "cmd000" "cmd001" cmdStatusR cmdStatusW
      rfl rfl rfl).1,
   by decide⟩

theorem guStep_params_mono (flavor : String) (acc : String × List ArgDesc)
    (d : ArgDesc) :
    (guStep flavor acc d).2 = acc.2 ∨ (guStep flavor acc d).2 = acc.2 ++ [d] := by
  unfold guStep
  split_ifs <;> simp

theorem foldl_guStep_params_mem (flavor : String) :
    ∀ (l : List ArgDesc) (acc : String × List ArgDesc) (x : ArgDesc),
      x ∈ acc.2 → x ∈ (l.foldl (guStep flavor) acc).2 := by
  intro l
  induction l with
  | nil =>
    intro acc x hx
    exact hx
  | cons d rest ih =>
    intro acc x hx
    apply ih
    rcases guStep_params_mono flavor acc d with h | h
    · rw [h]
      exact hx
    · rw [h]
      exact List.mem_append_left _ hx

theorem guStep_choices_param (flavor : String) (acc : String × List ArgDesc)
    (d : ArgDesc) (hne : acc.2 ≠ []) (ht : d.t = ArgKind.cephChoices)
    (hs : d.strings.length = 1) (hr : d.req = true)
    (hf : pyStartsWith (descStr d) "--" = false) :
    guStep flavor acc d = (acc.1, acc.2 ++ [d]) := by
  have hIsE : acc.2.isEmpty = false := by
    cases hacc : acc.2 with
    | nil => exact absurd hacc hne
    | cons a t => rfl
  simp [guStep, ht, hs, hr, hf, hIsE]

/-- Claim C6: once the route compiler has classified any descriptor as a
residual parameter (the accumulated parameter list is nonempty), every
later required single-choice non-flag ChoiceSet descriptor is classified
as a parameter too — its step leaves the URL unchanged and appends it to
the parameters, and it ends up in the compiled route's residual parameter
signature. -/
theorem c6_param_boundary_monotone (baseurl : String) (sig : List ArgDesc)
    (flavor : String) (l1 l2 : List ArgDesc) (d : ArgDesc)
    (hsplit : effSig flavor sig = l1 ++ d :: l2)
    (hne : (l1.foldl (guStep flavor) ("", [])).2 ≠ [])
    (ht : d.t = ArgKind.cephChoices) (hs : d.strings.length = 1)
    (hr : d.req = true) (hf : pyStartsWith (descStr d) "--" = false) :
    ((l1 ++ [d]).foldl (guStep flavor) ("", [])).1 =
      (l1.foldl (guStep flavor) ("", [])).1
    ∧ ((l1 ++ [d]).foldl (guStep flavor) ("", [])).2 =
      (l1.foldl (guStep flavor) ("", [])).2 ++ [d]
    ∧ d ∈ (generate_url_and_params baseurl sig flavor).2 := by
  have hstep := guStep_choices_param flavor (l1.foldl (guStep flavor) ("", []))
    d hne ht hs hr hf
  have hfold : (l1 ++ [d]).foldl (guStep flavor) ("", []) =
      guStep flavor (l1.foldl (guStep flavor) ("", [])) d := by
    rw [List.foldl_append]
    rfl
  refine ⟨?_, ?_, ?_⟩
  · rw [hfold, hstep]
  · rw [hfold, hstep]
  · show d ∈ ((effSig flavor sig).foldl (guStep flavor) ("", [])).2
    rw [hsplit, show l1 ++ d :: l2 = (l1 ++ [d]) ++ l2 by simp, List.foldl_append]
    apply foldl_guStep_params_mem
    rw [hfold, hstep]
    exact List.mem_append_right _ (List.mem_singleton.mpr rfl)

/-- Witness for C6: after a residual parameter, a required single-choice
literal is itself a parameter. -/
theorem c6_param_boundary_monotone_witness :
    (([descParamX] ++ [descChoiceYes]).foldl (guStep "mon") ("", [])).2 =
      (([descParamX] : List ArgDesc).foldl (guStep "mon") ("", [])).2 ++
        [descChoiceYes]
    ∧ descChoiceYes ∈
        (generate_url_and_params "/b" [descParamX, descChoiceYes] "mon").2 := by
  have h := c6_param_boundary_monotone "/b" [descParamX, descChoiceYes] "mon"
    [descParamX] [] descChoiceYes rfl (by decide) rfl rfl rfl rfl
  exact ⟨h.2.1, h.2.2⟩

theorem validate_ok_empty_args (paramsig : List ArgDesc)
    (ad : List (String × PyVal))
    (h : validate [] paramsig = Except.ok ad) :
    ∀ d ∈ paramsig, d.req = false := by
  intro d hd
  unfold validate at h
  rw [List.find?_nil] at h
  simp only [List.map_nil] at h
  cases hf : List.find? (fun d => d.req && !([] : List String).contains d.name)
      paramsig with
  | some w =>
    rw [hf] at h
    cases h
  | none =>
    have := List.find?_eq_none.mp hf d hd
    simp at this
    exact this

/-- Claim C7 (amended): in the overload-matching loop, an entry with an
empty paramSignature never matches a request that supplies query
parameters; a request supplying no query parameters matches only an entry
whose paramSignature is empty or consists entirely of optional parameters
(under the spec-modelled `validate`, an all-optional nonempty signature
also accepts the empty request). -/
theorem c7_amended (method : String) (args : List (String × List String))
    (pre : String) (uds : List UrlDict) (exc : String) (u : UrlDict)
    (ad : List (String × PyVal))
    (hfound : urlLoop method args pre uds exc = LoopOut.found u ad) :
    (args = [] → ∀ d ∈ u.paramsig, d.req = false)
    ∧ (args ≠ [] → u.paramsig ≠ []) := by
  induction uds generalizing exc with
  | nil =>
    rw [urlLoop] at hfound
    cases hfound
  | cons w rest ih =>
    rw [urlLoop] at hfound
    split at hfound
    · exact ih _ hfound
    · split at hfound
      · cases hfound
      · split at hfound
        · split at hfound
          · rename_i adval hval
            injection hfound with hu had
            subst hu
            constructor
            · intro hargs
              subst hargs
              exact validate_ok_empty_args w.paramsig adval hval
            · intro _ hcontra
              have hps' : (!w.paramsig.isEmpty) = true := by assumption
              rw [hcontra] at hps'
              simp at hps'
          · exact ih _ hfound
        · split at hfound
          · exact ih _ hfound
          · injection hfound with hu had
            subst hu
            constructor
            · intro _ d hd
              have hps' : ¬(!w.paramsig.isEmpty) = true := by assumption
              have hnil : w.paramsig = [] := by
                cases hw : w.paramsig with
                | nil => rfl
                | cons a t =>
                  rw [hw] at hps'
                  simp at hps'
              rw [hnil] at hd
              cases hd
            · intro hargsne
              have hargs' : ¬(!args.isEmpty) = true := by assumption
              cases hargsC : args with
              | nil => exact absurd hargsC hargsne
              | cons a t =>
                rw [hargsC] at hargs'
                simp at hargs'

/-- Claim C7 counterexample: a request supplying no query parameters
matches an entry whose paramSignature is nonempty (a single optional
parameter), so "can only match an entry whose paramSignature is empty"
fails. -/
theorem c7_counterexample :
    urlLoop "GET" [] "p" [udOptOnly] "" = LoopOut.found udOptOnly []
    ∧ udOptOnly.paramsig ≠ [] := by
  exact ⟨rfl, by decide⟩

/-- Witness for C7 (amended): the zero-parameter request only reaches
optional parameters, and a matched request with arguments implies a
nonempty paramSignature. -/
theorem c7_amended_witness :
    descOptX.req = false ∧ udOptOnly.paramsig ≠ [] :=
  ⟨(c7_amended "GET" [] "p" [udOptOnly] "" udOptOnly [] rfl).1 rfl descOptX
     (by decide),
   (c7_amended "GET" [("x", ["1"])] "p" [udOptOnly] "" udOptOnly
      [("x", PyVal.pstr "1")] rfl).2 (by decide)⟩

theorem find?_map_overwrite_self {α : Type} (d : List (String × α)) (k : String)
    (v : α) (hany : d.any (fun kv => kv.1 == k) = true) :
    dictGet (d.map (fun kv => if kv.1 == k then (k, v) else kv)) k = some v := by
  induction d with
  | nil => simp at hany
  | cons kv rest ih =>
    simp only [List.map_cons]
    by_cases hkv : (kv.1 == k) = true
    · rw [if_pos hkv]
      unfold dictGet
      rw [List.find?_cons_of_pos _ (by simp)]
      rfl
    · rw [if_neg hkv]
      unfold dictGet
      rw [List.find?_cons_of_neg _ (by simp [hkv])]
      apply ih
      simp only [List.any_cons, hkv, Bool.false_or] at hany
      exact hany

theorem dictGet_dictSet_self {α : Type} (d : List (String × α)) (k : String)
    (v : α) : dictGet (dictSet d k v) k = some v := by
  unfold dictSet
  split
  · rename_i hany
    exact find?_map_overwrite_self d k v hany
  · rename_i hany
    have hnone : d.find? (fun kv => kv.1 == k) = none := by
      rw [List.find?_eq_none]
      intro x hx
      simp only [Bool.not_eq_true]
      by_contra hx2
      simp only [Bool.not_eq_false] at hx2
      exact hany (List.any_eq_true.mpr ⟨x, hx, hx2⟩)
    unfold dictGet
    rw [List.find?_append, hnone]
    simp [List.find?]

/-- Claim C1 (amended): for a request whose endpoint passes the base-URL
check but is not a known RouteKey, when the discovery fallback finds no
matching catalog command the dispatcher responds HTTP 400 with an
`Invalid endpoint` message (not NotFound 404); when matches exist it
returns the help document with HTTP 400 and Content-Type text/html. -/
theorem c1_amended (g : Glob) (jc : JsonCmd) (req : Request)
    (cp f t : Option String)
    (hbase : pyStartsWith (epOf cp req.endpoint) g.baseurl = true)
    (hunknown : hasKey g.urls (epOf cp req.endpoint) = false) :
    (show_human_help g (prefixOf g req cp t) = Except.ok "" →
      handler g jc req cp f t =
        Except.ok (make_response (resolveFmt f req.accept) ""
          ("Invalid endpoint " ++ epOf cp req.endpoint) 400))
    ∧ (∀ h, h ≠ "" → show_human_help g (prefixOf g req cp t) = Except.ok h →
        handler g jc req cp f t = Except.ok ⟨h, 400, some "text/html"⟩) := by
  constructor
  · intro hok
    simp only [handler, hbase, if_true, hunknown, Bool.false_eq_true, if_false, hok]
    rfl
  · intro h hne hok
    have hie : h.isEmpty = false := by
      cases hh : h.isEmpty with
      | false => rfl
      | true => exact absurd ((String.isEmpty_iff h).mp hh) hne
    simp only [handler, hbase, if_true, hunknown, Bool.false_eq_true, if_false,
      hok, hie]

/-- Claim C1 counterexample: an unknown endpoint under the base URL with
an empty catalog — the fallback finds no matches and the dispatcher
responds HTTP 400 (with an empty body, since no format was requested),
not NotFound 404 as the claim states. -/
theorem c1_counterexample :
    handler gEmpty jcDummy reqPlain (some "api/v0.1/xyz") none none =
      Except.ok ⟨"", 400, none⟩
    ∧ (400 : Nat) ≠ 404 := by
  exact ⟨rfl, by decide⟩

/-- Witness for C1 (amended) at the empty catalog and an unknown path. -/
theorem c1_amended_witness :
    handler gEmpty jcDummy reqPlain (some "api/v0.1/xyz") none none =
      Except.ok (make_response (resolveFmt none reqPlain.accept) ""
        ("Invalid endpoint " ++ epOf (some "api/v0.1/xyz") reqPlain.endpoint) 400) :=
  (c1_amended gEmpty jcDummy reqPlain (some "api/v0.1/xyz") none none rfl rfl).1 rfl

/-- Claim C2, evaluated at the failing input: on a known `tellosd` route
whose target segment fails to parse as a backend node name, the handler
records the failure (`valid = false` with the parse error as `reason`)
but never consults either variable again — the request is not answered
400 with the parse error; the command is executed with the raw unparsed
target string and the collaborator's success response is returned. -/
theorem c2_target_parse_ignored :
    (resolveTarget "tell/<target>/version" [] (some "abc")).valid = false
    ∧ (resolveTarget "tell/<target>/version" [] (some "abc")).reason =
        "invalid osdname abc"
    ∧ handler gTell jcEchoTarget reqTell none none (some "abc") =
        Except.ok ⟨"RAW:abc", 200, some "text/plain"⟩ := by
  exact ⟨rfl, rfl, rfl⟩

/-- Claim C9 counterexample: an explicit `format=xml` query parameter (the
claim's "explicit `format` mechanism") does not override the Accept
header: with `application/json` acceptable and no path suffix, line 482
overwrites the validated `format` argument with the resolved `json` — the
collaborator sees `format = json` (echoed here into the status member)
and the response is rendered as JSON with an `application/json`
Content-Type, where the claim requires `xml` to win. -/
theorem c9_counterexample :
    handler gFmt jcEchoFormat reqFmt none none none =
      Except.ok ⟨json_dumps (Json.obj [("output", Json.arr []),
        ("status", Json.str "json")]), 200, some "application/json"⟩
    ∧ ("json" : String) ≠ "xml" := by
  exact ⟨rfl, by decide⟩

/-- Claim C9 (amended): the response format is resolved by precedence:
an explicit truthy path-suffix format, else `application/json` among the
client's accepted types, else `application/xml`, else unformatted (which
becomes `plain` when injected); there is no client `format`-parameter
level — any `format` value in the validated argument mapping is
unconditionally overwritten with the resolved format. -/
theorem c9_amended (fmt : Option String) (accept : List String)
    (ad : List (String × PyVal)) (v : PyVal) :
    (pyTruthy fmt = true → resolveFmt fmt accept = fmt)
    ∧ (pyTruthy fmt = false → accept.contains "application/json" = true →
        resolveFmt fmt accept = some "json")
    ∧ (pyTruthy fmt = false → accept.contains "application/json" = false →
        accept.contains "application/xml" = true →
        resolveFmt fmt accept = some "xml")
    ∧ (pyTruthy fmt = false → accept.contains "application/json" = false →
        accept.contains "application/xml" = false →
        pyOr (resolveFmt fmt accept) "plain" = pyOr fmt "plain")
    ∧ dictGet (dictSet ad "format" v) "format" = some v := by
  refine ⟨?_, ?_, ?_, ?_, dictGet_dictSet_self ad "format" v⟩
  · intro h1
    simp [resolveFmt, h1]
  · intro h1 h2
    unfold resolveFmt
    rw [if_neg (by simp [h1]), if_pos (by simpa using h2)]
  · intro h1 h2 h3
    unfold resolveFmt
    rw [if_neg (by simp [h1]), if_neg (by simpa using h2),
      if_pos (by simpa using h3)]
  · intro h1 h2 h3
    unfold resolveFmt
    rw [if_neg (by simp [h1]), if_neg (by simpa using h2),
      if_neg (by simpa using h3)]

/-- Witness for C9 (amended) at each precedence level and the overwrite. -/
theorem c9_amended_witness :
    resolveFmt (some "json-pretty") ["application/xml"] = some "json-pretty"
    ∧ resolveFmt none ["application/json"] = some "json"
    ∧ resolveFmt none ["application/xml"] = some "xml"
    ∧ pyOr (resolveFmt none []) "plain" = pyOr none "plain"
    ∧ dictGet (dictSet [("format", PyVal.pstr "xml")] "format"
        (PyVal.pstr "json")) "format" = some (PyVal.pstr "json") :=
  ⟨(c9_amended (some "json-pretty") ["application/xml"] [] (PyVal.pstr "")).1 rfl,
   (c9_amended none ["application/json"] [] (PyVal.pstr "")).2.1 rfl rfl,
   (c9_amended none ["application/xml"] [] (PyVal.pstr "")).2.2.1 rfl rfl rfl,
   (c9_amended none [] [] (PyVal.pstr "")).2.2.2.1 rfl rfl rfl,
   (c9_amended none [] [("format", PyVal.pstr "xml")] (PyVal.pstr "json")).2.2.2.2⟩
